import Mathlib

/-!
Verification of `src/backend/app/utils/file_parser.py`.

The Python module has three parts:
* `_read_text_with_fallback`: multi-tier byte decoding (strict UTF-8, two
  optional detectors, lossy UTF-8 fallback);
* class `FileParser`: `extract_text` (dispatch on extension) and
  `extract_from_multiple` (batch extraction with per-file error isolation);
* `split_text_into_chunks`: boundary-aware sliding-window chunker.

Python strings are modelled as `List Char` (Python strings are sequences of
code points), bytes as `List Nat` (each element < 256).  File-system access,
the PDF engine, the encoding detectors and the non-UTF-8 codec registry are
external collaborators and are modelled as parameters (`Env`).
-/

set_option maxRecDepth 20000

/- ### Python string primitives used by the module -/

/-- Python `str.strip()` whitespace test (`str.isspace()` on one character):
the exact CPython set U+0009–U+000D, U+001C–U+001F, U+0020, U+0085, U+00A0,
U+1680, U+2000–U+200A, U+2028, U+2029, U+202F, U+205F and U+3000. -/
def pyIsSpace (c : Char) : Bool :=
  decide ((0x09 ≤ c.toNat ∧ c.toNat ≤ 0x0D) ∨ (0x1C ≤ c.toNat ∧ c.toNat ≤ 0x1F) ∨
    c.toNat = 0x20 ∨ c.toNat = 0x85 ∨ c.toNat = 0xA0 ∨ c.toNat = 0x1680 ∨
    (0x2000 ≤ c.toNat ∧ c.toNat ≤ 0x200A) ∨ c.toNat = 0x2028 ∨ c.toNat = 0x2029 ∨
    c.toNat = 0x202F ∨ c.toNat = 0x205F ∨ c.toNat = 0x3000)

/-- Python `str.strip()`: drop leading and trailing whitespace. -/
def pyStrip (l : List Char) : List Char :=
  ((l.dropWhile pyIsSpace).reverse.dropWhile pyIsSpace).reverse

/-- Clamp one slice index the way Python slicing does: a negative index counts
from the end of the sequence, and everything is clamped into `[0, n]`. -/
def clampIdx (n : Nat) (i : Int) : Nat :=
  if i < 0 then (i + n).toNat else min i.toNat n

/-- Python `text[s:e]` for integer slice bounds. -/
def pySliceInt (l : List Char) (s e : Int) : List Char :=
  (l.take (clampIdx l.length e)).drop (clampIdx l.length s)

/-- Python `w.rfind(sep)`: the largest index at which `sep` occurs in `w`,
as an `Option` (Python returns `-1` for "no occurrence"). -/
def rfind (w sep : List Char) : Option Nat :=
  (List.range (w.length + 1)).reverse.find? (fun i => sep.isPrefixOf (w.drop i))

/- ### The chunker `split_text_into_chunks` -/

/-- The separator list of the chunker, in source order (line 175 of the
Python file). -/
def SEPARATORS : List (List Char) :=
  [['。'], ['！'], ['？'], ['.', '\n'], ['!', '\n'], ['?', '\n'],
   ['\n', '\n'], ['.', ' '], ['!', ' '], ['?', ' ']]

/-- The `for sep in [...]` loop of the chunker: try each separator in order;
on the first one whose rightmost occurrence `i` in the window satisfies
`last_sep != -1 and last_sep > chunk_size * 0.3` return `i + len(sep)`
(the amount to add to `start`), else keep looking.  A separator that occurs
only at or below the threshold does not stop the search.
The Python threshold `last_sep > chunk_size * 0.3` is evaluated in binary
floating point; it is modelled here by the exact comparison
`3 * cs < 10 * i`, which agrees with the float comparison for the chunk
sizes exercised below. -/
def findBoundary (w : List Char) (cs : Nat) : List (List Char) → Option Nat
  | [] => none
  | sep :: rest =>
    match rfind w sep with
    | some i => if 3 * cs < 10 * i then some (i + sep.length) else findBoundary w cs rest
    | none => findBoundary w cs rest

/-- The window end for the iteration starting at `start`:
`end = start + chunk_size`, adjusted to `start + last_sep + len(sep)` when a
separator is accepted (only attempted while `end < len(text)`). -/
def windowEnd (text : List Char) (cs : Nat) (start : Int) : Int :=
  if start + (cs : Int) < (text.length : Int) then
    match findBoundary (pySliceInt text start (start + (cs : Int))) cs SEPARATORS with
    | some d => start + (d : Int)
    | none => start + (cs : Int)
  else start + (cs : Int)

/-- Python `text[start:end].strip()` for the current iteration. -/
def emittedChunk (text : List Char) (cs : Nat) (start : Int) : List Char :=
  pyStrip (pySliceInt text start (windowEnd text cs start))

/-- Python `start = end - overlap if end < len(text) else len(text)`. -/
def nextStart (text : List Char) (cs ov : Nat) (start : Int) : Int :=
  if windowEnd text cs start < (text.length : Int) then windowEnd text cs start - (ov : Int)
  else (text.length : Int)

/-- The `while start < len(text)` loop, with explicit fuel: `none` means the
fuel ran out with the cursor still inside the text (in particular every
non-terminating run of the Python loop is mapped to `none`). -/
def chunkLoop (text : List Char) (cs ov : Nat) : Nat → Int → List (List Char) → Option (List (List Char))
  | 0, start, acc => if start < (text.length : Int) then none else some acc.reverse
  | fuel + 1, start, acc =>
    if start < (text.length : Int) then
      chunkLoop text cs ov fuel (nextStart text cs ov start)
        (if emittedChunk text cs start = [] then acc else emittedChunk text cs start :: acc)
    else some acc.reverse

/-- Model of `split_text_into_chunks(text, chunk_size, overlap)`.  The Python defaults
are `chunk_size=500, overlap=50`.  The loop is run with fuel
`len(text) + 1`, which is enough for every run in which the cursor advances
by at least one character per iteration. -/
def split_text_into_chunks (text : List Char) (cs ov : Nat) : Option (List (List Char)) :=
  if text.length ≤ cs then some (if pyStrip text = [] then [] else [text])
  else chunkLoop text cs ov (text.length + 1) 0 []

/- ### UTF-8 decoding (model of CPython's utf-8 codec) -/

/-- Is `b` a UTF-8 continuation byte (`0x80 ≤ b < 0xC0`)? -/
def utf8Cont (b : Nat) : Bool :=
  decide (128 ≤ b ∧ b < 192)

/-- Decode one code point from lead byte `b` followed by `rest`.
Returns the scalar value (or `none` for an invalid sequence) together with
the number of bytes consumed from `rest` (the lead byte is always consumed).
On an invalid sequence the bytes consumed are the maximal subpart of the
ill-formed sequence, which is what CPython replaces by a single U+FFFD under
`errors='replace'`.  Overlong forms, surrogates and values above U+10FFFF
are rejected, as in CPython's strict utf-8 codec. -/
def utf8Step (b : Nat) (rest : List Nat) : Option Nat × Nat :=
  if b < 128 then (some b, 0)
  else if b < 194 then (none, 0)
  else if b < 224 then
    match rest with
    | b1 :: _ => if utf8Cont b1 then (some ((b - 192) * 64 + (b1 - 128)), 1) else (none, 0)
    | [] => (none, 0)
  else if b < 240 then
    match rest with
    | b1 :: rest1 =>
      if (if b = 224 then 160 else 128) ≤ b1 ∧ b1 < (if b = 237 then 160 else 192) then
        match rest1 with
        | b2 :: _ =>
          if utf8Cont b2 then (some ((b - 224) * 4096 + (b1 - 128) * 64 + (b2 - 128)), 2)
          else (none, 1)
        | [] => (none, 1)
      else (none, 0)
    | [] => (none, 0)
  else if b < 245 then
    match rest with
    | b1 :: rest1 =>
      if (if b = 240 then 144 else 128) ≤ b1 ∧ b1 < (if b = 244 then 144 else 192) then
        match rest1 with
        | b2 :: rest2 =>
          if utf8Cont b2 then
            match rest2 with
            | b3 :: _ =>
              if utf8Cont b3 then
                (some ((b - 240) * 262144 + (b1 - 128) * 4096 + (b2 - 128) * 64 + (b3 - 128)), 3)
              else (none, 2)
            | [] => (none, 2)
          else (none, 1)
        | [] => (none, 1)
      else (none, 0)
    | [] => (none, 0)
  else (none, 0)

/-- Strict UTF-8 decoding with structural fuel (each step consumes at least
the lead byte, so fuel equal to the buffer length always suffices; the
`(0, _ :: _)` case is unreachable from `utf8DecodeStrict`). -/
def utf8DecodeStrictAux : Nat → List Nat → Option (List Char)
  | _, [] => some []
  | 0, _ :: _ => none
  | fuel + 1, b :: rest =>
    match utf8Step b rest with
    | (some c, k) =>
      match utf8DecodeStrictAux fuel (rest.drop k) with
      | some cs => some (Char.ofNat c :: cs)
      | none => none
    | (none, _) => none

/-- Strict `data.decode('utf-8')`: `some` of the decoded string, or `none`
when the bytes are not valid UTF-8 (Python raises `UnicodeDecodeError`). -/
def utf8DecodeStrict (data : List Nat) : Option (List Char) :=
  utf8DecodeStrictAux data.length data

/-- Lossy UTF-8 decoding with structural fuel, as in `utf8DecodeStrictAux`. -/
def utf8DecodeReplaceAux : Nat → List Nat → List Char
  | _, [] => []
  | 0, _ :: _ => []
  | fuel + 1, b :: rest =>
    match utf8Step b rest with
    | (oc, k) =>
      (match oc with | some c => Char.ofNat c | none => '�') ::
        utf8DecodeReplaceAux fuel (rest.drop k)

/-- Lossy `data.decode('utf-8', errors='replace')`: total, with each maximal
ill-formed subpart replaced by U+FFFD. -/
def utf8DecodeReplace (data : List Nat) : List Char :=
  utf8DecodeReplaceAux data.length data

/-- Normalize a detector answer the way the Python truthiness tests
(`if best and best.encoding`, `if not encoding`) do: `None` and the empty
label both count as "no encoding". -/
def bestLabel : Option String → Option String
  | none => none
  | some e => if e = "" then none else some e

/-- Model of `_read_text_with_fallback`, applied to the bytes read from the file.
`codecs` models `data.decode(encoding, errors='replace')` for a detected
non-UTF-8 encoding label (the external codec registry); `detA` models
`charset_normalizer.from_bytes(data).best()` and `detB` models
`chardet.detect(data)`, both already collapsed to an optional label
(`none` covers the library being missing, raising, or reporting nothing).
The final branch models `encoding = 'utf-8'` followed by
`data.decode('utf-8', errors='replace')`. -/
def read_text_with_fallback (codecs : String → List Nat → List Char)
    (detA detB : List Nat → Option String) (data : List Nat) : List Char :=
  match utf8DecodeStrict data with
  | some s => s
  | none =>
    match
      (match bestLabel (detA data) with
       | some e => some e
       | none => bestLabel (detB data)) with
    | some e => codecs e data
    | none => utf8DecodeReplace data

/- ### The extractor `FileParser` -/

/-- The exception kinds raised inside `extract_text`, with their `str(e)`
payloads: `FileNotFoundError`, `ValueError`, `ImportError`, plus any
exception propagated from the PDF engine. -/
inductive PyError where
  | fileNotFound (msg : String)
  | valueError (msg : String)
  | importError (msg : String)
  | engineError (msg : String)
deriving DecidableEq, Repr

/-- Python `str(e)` for the exceptions above. -/
def errMsg : PyError → String
  | .fileNotFound m => m
  | .valueError m => m
  | .importError m => m
  | .engineError m => m

/-- The external collaborators of the module: file system existence and
byte reads, the codec registry for detected encodings, the two encoding
detectors, and the PDF engine (`fitz` availability plus per-page texts or a
raised error message). -/
structure Env where
  pathExists : String → Bool
  readBytes : String → List Nat
  codecs : String → List Nat → List Char
  detA : List Nat → Option String
  detB : List Nat → Option String
  pdfAvailable : Bool
  pdfExtract : String → Except String (List String)

/-- Split a character list at every occurrence of `sep` (Python
`str.split(sep)` for a one-character separator). -/
def splitOnChar (sep : Char) : List Char → List (List Char)
  | [] => [[]]
  | c :: rest =>
    match splitOnChar sep rest with
    | [] => [[]]
    | h :: t => if c = sep then [] :: h :: t else (c :: h) :: t

/-- Python `str.lower()` on one character.  The mapping is exact for every
character whose Python lowercase involves an ASCII character: `A`–`Z`,
U+212A KELVIN SIGN (the one non-ASCII code point whose lowercase is a single
ASCII letter, `k`), and U+0130 LATIN CAPITAL LETTER I WITH DOT ABOVE (whose
lowercase is the two-character string `i` + U+0307).  Every other character
is kept unchanged; Python may lower it to a *different* character, but that
character is never ASCII, so comparisons against the ASCII extension set are
unaffected. -/
def pyCharLower (c : Char) : List Char :=
  if 65 ≤ c.toNat ∧ c.toNat ≤ 90 then [Char.ofNat (c.toNat + 32)]
  else if c.toNat = 0x212A then ['k']
  else if c.toNat = 0x130 then ['i', Char.ofNat 0x307]
  else [c]

/-- Python `str.lower()` on a character list. -/
def pyLower (l : List Char) : List Char :=
  (l.map pyCharLower).flatten

/-- Python `str.lower()`. -/
def pyLowerStr (s : String) : String :=
  String.mk (pyLower s.toList)

/-- Python `pathlib.Path(p).name`: the final non-empty, non-`'.'` component of the
path (POSIX separators). -/
def pathName (p : String) : String :=
  match ((splitOnChar '/' p.toList).filter (fun s => s != [] && s != ['.'])).getLast? with
  | some s => String.mk s
  | none => ""

/-- Python `pathlib.Path(p).suffix`: `name[i:]` for the last `'.'` at index `i`
when `0 < i < len(name) - 1`, else the empty string. -/
def pathSuffix (p : String) : String :=
  let n := (pathName p).toList
  match rfind n ['.'] with
  | some i => if 0 < i ∧ i + 1 < n.length then String.mk (n.drop i) else ""
  | none => ""

/-- The set `FileParser.SUPPORTED_EXTENSIONS`. -/
def SUPPORTED_EXTENSIONS : List String :=
  [".pdf", ".md", ".markdown", ".txt"]

/-- Model of `FileParser._extract_from_pdf`: `ImportError` when PyMuPDF is missing,
otherwise walk the pages, keep those whose text is non-blank after
stripping (the original, unstripped text is kept), and join with a
double newline; any engine failure propagates. -/
def extract_from_pdf (env : Env) (file_path : String) : Except PyError String :=
  if env.pdfAvailable = false then
    Except.error (.importError "需要安装PyMuPDF: pip install PyMuPDF")
  else
    match env.pdfExtract file_path with
    | Except.error m => Except.error (.engineError m)
    | Except.ok pages =>
        Except.ok (String.intercalate "\n\n" (pages.filter (fun t => !(pyStrip t.toList).isEmpty)))

/-- Model of `FileParser.extract_text`: existence check, then dispatch on the
lower-cased suffix.  `.md`/`.markdown` and `.txt` both go through
`_read_text_with_fallback` on the file's bytes. -/
def extract_text (env : Env) (file_path : String) : Except PyError String :=
  if env.pathExists file_path = false then
    Except.error (.fileNotFound ("文件不存在: " ++ file_path))
  else if pyLowerStr (pathSuffix file_path) ∉ SUPPORTED_EXTENSIONS then
    Except.error (.valueError ("不支持的文件格式: " ++ pyLowerStr (pathSuffix file_path)))
  else if pyLowerStr (pathSuffix file_path) = ".pdf" then
    extract_from_pdf env file_path
  else if pyLowerStr (pathSuffix file_path) = ".md" ∨ pyLowerStr (pathSuffix file_path) = ".markdown" then
    Except.ok (String.mk (read_text_with_fallback env.codecs env.detA env.detB (env.readBytes file_path)))
  else if pyLowerStr (pathSuffix file_path) = ".txt" then
    Except.ok (String.mk (read_text_with_fallback env.codecs env.detA env.detB (env.readBytes file_path)))
  else
    Except.error (.valueError ("无法处理的文件格式: " ++ pyLowerStr (pathSuffix file_path)))

/-- Test whether an `extract_text` result is the `ValueError`
(unsupported-format) failure kind. -/
def isValueError : Except PyError String → Bool
  | Except.error (PyError.valueError _) => true
  | _ => false

/-- Decidable equality for `Except` results, used only to let concrete
witness equalities be checked by `decide`. -/
instance {ε α : Type} [DecidableEq ε] [DecidableEq α] : DecidableEq (Except ε α)
  | Except.ok a, Except.ok b =>
    if h : a = b then Decidable.isTrue (by rw [h])
    else Decidable.isFalse (fun he => by cases he; exact h rfl)
  | Except.ok _, Except.error _ => Decidable.isFalse (fun he => by cases he)
  | Except.error _, Except.ok _ => Decidable.isFalse (fun he => by cases he)
  | Except.error a, Except.error b =>
    if h : a = b then Decidable.isTrue (by rw [h])
    else Decidable.isFalse (fun he => by cases he; exact h rfl)

/-- One section of the batch output, for 1-based index `i`: the loop body of
`extract_from_multiple`, including the `except Exception` branch. -/
def sectionFor (env : Env) (i : Nat) (p : String) : String :=
  match extract_text env p with
  | Except.ok text =>
      "=== 文档 " ++ toString i ++ ": " ++ pathName p ++ " ===\n" ++ text
  | Except.error e =>
      "=== 文档 " ++ toString i ++ ": " ++ p ++ " (提取失败: " ++ errMsg e ++ ") ==="

/-- The `for i, file_path in enumerate(file_paths, 1)` loop building
`all_texts`, in order. -/
def sectionsFrom (env : Env) : Nat → List String → List String
  | _, [] => []
  | i, p :: ps => sectionFor env i p :: sectionsFrom env (i + 1) ps

/-- Model of `FileParser.extract_from_multiple`: `"\n\n".join(all_texts)`. -/
def extract_from_multiple (env : Env) (file_paths : List String) : String :=
  String.intercalate "\n\n" (sectionsFrom env 1 file_paths)

/-- Python's `enumerate(l, i)`. -/
def enumFrom {α : Type} : Nat → List α → List (Nat × α)
  | _, [] => []
  | i, a :: l => (i, a) :: enumFrom (i + 1) l

/- ### Concrete instances used as witnesses and counterexamples -/

/-- An environment in which no path exists and no optional dependency is
available. -/
def env0 : Env :=
  Env.mk (fun _ => false) (fun _ => []) (fun _ _ => []) (fun _ => none) (fun _ => none)
    false (fun _ => Except.error "")

/-- An environment in which only `a.docx` exists. -/
def envDocx : Env :=
  Env.mk (fun p => p == "a.docx") (fun _ => []) (fun _ _ => []) (fun _ => none) (fun _ => none)
    false (fun _ => Except.error "")

/-- 13-character text whose first 10-character window contains `。` at
index 2 (below the 30% threshold for `chunk_size = 10`) and `.\n` at
index 6 (above it). -/
def sampleLoopText : List Char := "ab。cde.\nXYZZZ".toList

/-- 19-character text on which the chunker loop never advances for
`chunk_size = 10, overlap = 9`: the first window `text[0:10]` has its
rightmost `。` at index 8, so `end = 9` and `start = end - 9 = 0` forever. -/
def nonTermText : List Char := "aaaaaaaa。abcdefghij".toList

/- ### Helper lemmas -/

lemma dropWhile_length_le (p : Char → Bool) (l : List Char) :
    (l.dropWhile p).length ≤ l.length := by
  induction l with
  | nil => simp [List.dropWhile]
  | cons a l ih =>
    rw [List.dropWhile]
    by_cases h : p a
    · simp only [h]
      exact le_trans ih (by simp)
    · simp [h]

lemma pyStrip_length_le (l : List Char) : (pyStrip l).length ≤ l.length := by
  unfold pyStrip
  rw [List.length_reverse]
  refine le_trans (dropWhile_length_le pyIsSpace _) ?_
  rw [List.length_reverse]
  exact dropWhile_length_le pyIsSpace l

lemma pySliceInt_length_le (l : List Char) (s e : Int) (h : s ≤ e) :
    (pySliceInt l s e).length ≤ (e - s).toNat := by
  unfold pySliceInt clampIdx
  simp only [List.length_drop, List.length_take]
  split_ifs <;> omega

lemma isPrefixOf_len (l₁ l₂ : List Char) (h : l₁.isPrefixOf l₂ = true) :
    l₁.length ≤ l₂.length := by
  induction l₁ generalizing l₂ with
  | nil => simp
  | cons a l ih =>
    cases l₂ with
    | nil => simp [List.isPrefixOf] at h
    | cons b l2 =>
      simp only [List.isPrefixOf, Bool.and_eq_true] at h
      have := ih l2 h.2
      simp only [List.length_cons]
      omega

lemma rfind_bound (w sep : List Char) (i : Nat) (h : rfind w sep = some i) :
    i + sep.length ≤ w.length := by
  unfold rfind at h
  have hp := List.find?_some h
  have hm := List.mem_of_find?_eq_some h
  rw [List.mem_reverse, List.mem_range] at hm
  have hl := isPrefixOf_len sep (w.drop i) (by simpa using hp)
  rw [List.length_drop] at hl
  omega

lemma findBoundary_le (w : List Char) (cs : Nat) (seps : List (List Char)) (d : Nat)
    (h : findBoundary w cs seps = some d) : d ≤ w.length := by
  induction seps with
  | nil => simp [findBoundary] at h
  | cons sep rest ih =>
    unfold findBoundary at h
    cases hr : rfind w sep with
    | none => rw [hr] at h; exact ih h
    | some i =>
      rw [hr] at h
      by_cases hc : 3 * cs < 10 * i
      · simp only [hc, if_true, Option.some.injEq] at h
        have := rfind_bound w sep i hr
        omega
      · simp only [hc, if_false] at h
        exact ih h

lemma findBoundary_lower (w : List Char) (cs : Nat) (seps : List (List Char))
    (hs : ∀ s ∈ seps, s ≠ []) (d : Nat) (h : findBoundary w cs seps = some d) :
    3 * cs / 10 + 2 ≤ d := by
  induction seps with
  | nil => simp [findBoundary] at h
  | cons sep rest ih =>
    unfold findBoundary at h
    cases hr : rfind w sep with
    | none =>
      rw [hr] at h
      exact ih (fun s hsm => hs s (List.mem_cons_of_mem sep hsm)) h
    | some i =>
      rw [hr] at h
      by_cases hc : 3 * cs < 10 * i
      · simp only [hc, if_true, Option.some.injEq] at h
        have hne : sep ≠ [] := hs sep (List.mem_cons_self sep rest)
        have hlen : 0 < sep.length := List.length_pos.mpr hne
        omega
      · simp only [hc, if_false] at h
        exact ih (fun s hsm => hs s (List.mem_cons_of_mem sep hsm)) h

lemma windowEnd_ge (text : List Char) (cs : Nat) (start : Int) :
    start ≤ windowEnd text cs start := by
  unfold windowEnd
  by_cases h : start + (cs : Int) < (text.length : Int)
  · simp only [h, if_true]
    cases hf : findBoundary (pySliceInt text start (start + (cs : Int))) cs SEPARATORS with
    | some d => simp only [hf]; omega
    | none => simp only [hf]; omega
  · simp only [h, if_false]; omega

lemma windowEnd_le (text : List Char) (cs : Nat) (start : Int) :
    windowEnd text cs start ≤ start + (cs : Int) := by
  unfold windowEnd
  by_cases h : start + (cs : Int) < (text.length : Int)
  · simp only [h, if_true]
    cases hf : findBoundary (pySliceInt text start (start + (cs : Int))) cs SEPARATORS with
    | some d =>
      simp only [hf]
      have h1 := findBoundary_le _ cs SEPARATORS d hf
      have h2 := pySliceInt_length_le text start (start + (cs : Int)) (by omega)
      omega
    | none => simp only [hf]; omega
  · simp only [h, if_false]; omega

lemma emittedChunk_length_le (text : List Char) (cs : Nat) (start : Int) :
    (emittedChunk text cs start).length ≤ cs := by
  unfold emittedChunk
  have h1 := pyStrip_length_le (pySliceInt text start (windowEnd text cs start))
  have h2 := pySliceInt_length_le text start (windowEnd text cs start)
    (windowEnd_ge text cs start)
  have h3 := windowEnd_le text cs start
  have h4 := windowEnd_ge text cs start
  omega

lemma nextStart_ge (text : List Char) (cs ov : Nat) (start : Int)
    (hov : ov < cs) (hov2 : ov ≤ 3 * cs / 10 + 1) :
    start + 1 ≤ nextStart text cs ov start ∨ nextStart text cs ov start = (text.length : Int) := by
  unfold nextStart
  by_cases he : windowEnd text cs start < (text.length : Int)
  · left
    simp only [he, if_true]
    unfold windowEnd at he ⊢
    by_cases h0 : start + (cs : Int) < (text.length : Int)
    · simp only [h0, if_true] at he ⊢
      cases hf : findBoundary (pySliceInt text start (start + (cs : Int))) cs SEPARATORS with
      | some d =>
        have hd := findBoundary_lower _ cs SEPARATORS (by decide) d hf
        simp only [hf]
        omega
      | none =>
        simp only [hf]
        omega
    · simp only [h0, if_false] at he
  · right
    simp only [he, if_false]

lemma chunkLoop_isSome (text : List Char) (cs ov : Nat) (hov : ov < cs)
    (hov2 : ov ≤ 3 * cs / 10 + 1) :
    ∀ (fuel : Nat) (start : Int) (acc : List (List Char)),
      (text.length : Int) ≤ start + (fuel : Int) →
      (chunkLoop text cs ov fuel start acc).isSome = true := by
  intro fuel
  induction fuel with
  | zero =>
    intro start acc h
    unfold chunkLoop
    have hns : ¬ start < (text.length : Int) := by
      simp only [Nat.cast_zero, add_zero] at h
      omega
    simp [hns]
  | succ f ih =>
    intro start acc h
    unfold chunkLoop
    by_cases hlt : start < (text.length : Int)
    · simp only [hlt, if_true]
      apply ih
      rcases nextStart_ge text cs ov start hov hov2 with h1 | h1
      · push_cast at h ⊢
        omega
      · rw [h1]
        omega
    · simp [hlt]

lemma chunkLoop_bound (text : List Char) (cs ov : Nat) :
    ∀ (fuel : Nat) (start : Int) (acc : List (List Char)) (r : List (List Char)),
      (∀ c ∈ acc, c.length ≤ cs) →
      chunkLoop text cs ov fuel start acc = some r →
      ∀ c ∈ r, c.length ≤ cs := by
  intro fuel
  induction fuel with
  | zero =>
    intro start acc r hacc h
    unfold chunkLoop at h
    by_cases hlt : start < (text.length : Int)
    · simp [hlt] at h
    · simp only [hlt, if_false, Option.some.injEq] at h
      intro c hc
      rw [← h] at hc
      exact hacc c (List.mem_reverse.mp hc)
  | succ f ih =>
    intro start acc r hacc h
    unfold chunkLoop at h
    by_cases hlt : start < (text.length : Int)
    · simp only [hlt, if_true] at h
      refine ih (nextStart text cs ov start) _ r ?_ h
      intro c hc
      by_cases he : emittedChunk text cs start = []
      · rw [if_pos he] at hc
        exact hacc c hc
      · rw [if_neg he] at hc
        rcases List.mem_cons.mp hc with hc | hc
        · rw [hc]
          exact emittedChunk_length_le text cs start
        · exact hacc c hc
    · simp only [hlt, if_false, Option.some.injEq] at h
      intro c hc
      rw [← h] at hc
      exact hacc c (List.mem_reverse.mp hc)

lemma sectionsFrom_eq (env : Env) (i : Nat) (ps : List String) :
    sectionsFrom env i ps = (enumFrom i ps).map (fun ip => sectionFor env ip.1 ip.2) := by
  induction ps generalizing i with
  | nil => rfl
  | cons p l ih => simp [sectionsFrom, enumFrom, ih]

lemma enumFrom_length {α : Type} (i : Nat) (l : List α) :
    (enumFrom i l).length = l.length := by
  induction l generalizing i with
  | nil => rfl
  | cons a l ih => simp [enumFrom, ih]

/- ### Claim theorems -/

/-- C1 (amended): every section of `extract_from_multiple` is formatted with
the byte strings the code actually uses — a success section for the i-th
path is `=== 文档 {i}: {basename} ===` followed by a newline and the
extracted text, and a failure section is
`=== 文档 {i}: {path} (提取失败: {error message}) ===`, with `i` 1-based in
input order and sections joined by `\n\n`. -/
theorem extract_from_multiple_composite_format (env : Env) (paths : List String) :
    extract_from_multiple env paths =
      String.intercalate "\n\n" ((enumFrom 1 paths).map (fun ip =>
        match extract_text env ip.2 with
        | Except.ok text =>
            "=== 文档 " ++ toString ip.1 ++ ": " ++ pathName ip.2 ++ " ===\n" ++ text
        | Except.error e =>
            "=== 文档 " ++ toString ip.1 ++ ": " ++ ip.2 ++ " (提取失败: " ++ errMsg e ++ ") ===")) := by
  unfold extract_from_multiple
  rw [sectionsFrom_eq]
  rfl

/-- C1 counterexample: the sections do not use the byte strings
`=== Document {i}: ...` / `(extraction failed: ...)` claimed by the spec:
on the single nonexistent path `missing.txt` the output is the Chinese-label
failure header, not the claimed English-label one. -/
theorem extract_from_multiple_header_counterexample :
    extract_from_multiple env0 ["missing.txt"] =
      "=== 文档 1: missing.txt (提取失败: 文件不存在: missing.txt) ===" ∧
    extract_from_multiple env0 ["missing.txt"] ≠
      "=== Document 1: missing.txt (extraction failed: 文件不存在: missing.txt) ===" := by
  constructor
  · rfl
  · decide

/-- C2 (amended): for `len(text) <= chunk_size` the chunker returns the
single-element list `[text]` — the original, untrimmed text — when the text
contains a non-whitespace character, and the empty list when the text is all
whitespace. -/
theorem split_single_window_untrimmed (text : List Char) (cs ov : Nat)
    (h : text.length ≤ cs) :
    split_text_into_chunks text cs ov =
      some (if pyStrip text = [] then [] else [text]) := by
  unfold split_text_into_chunks
  simp [h]

/-- C2 witness: `" a"` fits in one window and is returned untrimmed. -/
theorem split_single_window_witness :
    split_text_into_chunks ['a', ' ', 'b'] 10 2 = some [['a', ' ', 'b']] := by
  have h := split_single_window_untrimmed ['a', ' ', 'b'] 10 2 (by decide)
  rw [h]
  decide

/-- C2 counterexample: the claim says the single chunk is `text.strip()`,
but on `" a"` the code returns `[" a"]`, not `["a"]`. -/
theorem split_single_window_counterexample :
    split_text_into_chunks [' ', 'a'] 5 1 = some [[' ', 'a']] ∧
    pyStrip [' ', 'a'] = ['a'] ∧
    split_text_into_chunks [' ', 'a'] 5 1 ≠ some [pyStrip [' ', 'a']] := by
  refine ⟨by decide, by decide, by decide⟩

/-- C3 (amended): the boundary search commits to the first separator (in
priority order) whose rightmost occurrence `i` in the window exceeds 30% of
`chunk_size`; a separator whose rightmost occurrence fails the threshold is
skipped and the lower-priority separators are consulted. -/
theorem findBoundary_priority_step (w : List Char) (cs : Nat) (sep : List Char)
    (rest : List (List Char)) (i : Nat) (h : rfind w sep = some i) :
    findBoundary w cs (sep :: rest) =
      if 3 * cs < 10 * i then some (i + sep.length) else findBoundary w cs rest := by
  simp only [findBoundary, h]

/-- C3 witness: in the first window of `sampleLoopText` with
`chunk_size = 10`, the top-priority separator `。` occurs (rightmost index
2, below the threshold), and the search still finds the lower-priority
`.\n` at index 6, returning `8`. -/
theorem findBoundary_priority_witness :
    findBoundary (pySliceInt sampleLoopText 0 10) 10 SEPARATORS = some 8 := by
  have e : SEPARATORS = ['。'] :: SEPARATORS.drop 1 := rfl
  have h := findBoundary_priority_step (pySliceInt sampleLoopText 0 10) 10 ['。']
    (SEPARATORS.drop 1) 2 (by decide)
  rw [e, h]
  decide

/-- C3 counterexample: the claim says that when the first separator category
with any occurrence has its rightmost occurrence at ≤ 30% of `chunk_size`,
no lower-priority separator is consulted and the window end stays at
`start + chunk_size`.  In the first window of `sampleLoopText` the first
category `。` occurs only at index 2 (≤ 30% of 10), yet the window end moves
to 8 (the lower-priority `.\n` boundary), not 10. -/
theorem findBoundary_priority_counterexample :
    rfind (pySliceInt sampleLoopText 0 10) ['。'] = some 2 ∧
    ¬ (3 * 10 < 10 * 2) ∧
    windowEnd sampleLoopText 10 0 = 8 ∧
    windowEnd sampleLoopText 10 0 ≠ 0 + (10 : Int) := by
  refine ⟨by decide, by decide, by decide, by decide⟩

/-- C4 (amended): the chunker terminates for every `chunk_size > 0` when
additionally `overlap ≤ 3 * chunk_size / 10 + 1` (each accepted boundary
lies strictly beyond 30% of `chunk_size`, so every iteration then advances
the cursor); `overlap < chunk_size` alone is not sufficient. -/
theorem split_terminates_small_overlap (text : List Char) (cs ov : Nat)
    (hcs : 0 < cs) (hov : ov < cs) (hov2 : ov ≤ 3 * cs / 10 + 1) :
    (split_text_into_chunks text cs ov).isSome = true := by
  unfold split_text_into_chunks
  by_cases h : text.length ≤ cs
  · simp [h]
  · simp only [h, if_false]
    apply chunkLoop_isSome text cs ov hov hov2 (text.length + 1) 0 []
    push_cast
    omega

/-- C4 witness: a 13-character text, `chunk_size = 10`, `overlap = 2`. -/
theorem split_terminates_witness :
    (split_text_into_chunks sampleLoopText 10 2).isSome = true :=
  split_terminates_small_overlap sampleLoopText 10 2 (by decide) (by decide) (by decide)

/-- C4 counterexample: with `chunk_size = 10` and `overlap = 9`
(so `0 ≤ overlap < chunk_size` as the claim requires), on `nonTermText` the
first iteration accepts the `。` boundary at index 8, sets `end = 9`, and
moves the cursor to `start = 9 - 9 = 0`: the iteration does not advance the
cursor, the loop state repeats forever, and the loop never reaches
`start ≥ len(text)` (the fueled model returns `none`). -/
theorem split_nonterminating_counterexample :
    9 < 10 ∧
    (0 : Int) < (nonTermText.length : Int) ∧
    nextStart nonTermText 10 9 0 = 0 ∧
    split_text_into_chunks nonTermText 10 9 = none := by
  refine ⟨by decide, by decide, by decide, by decide⟩

/-- C5 (confirmed): `extract_from_multiple` is total in this model (every
per-path failure is caught and becomes that path's section), and its output
is exactly the sections of the input paths, in input order, 1-based, joined
by the blank-line separator `\n\n` — one section per input path. -/
theorem extract_from_multiple_sections (env : Env) (paths : List String) :
    extract_from_multiple env paths =
      String.intercalate "\n\n" ((enumFrom 1 paths).map (fun ip => sectionFor env ip.1 ip.2)) ∧
    ((enumFrom 1 paths).map (fun ip => sectionFor env ip.1 ip.2)).length = paths.length := by
  constructor
  · unfold extract_from_multiple
    rw [sectionsFrom_eq]
  · rw [List.length_map, enumFrom_length]

/-- C6 (confirmed): on a path that does not reference an existing file,
`extract_text` fails with `FileNotFoundError` (message `文件不存在: {path}`),
regardless of the path's extension — the existence check precedes the
extension dispatch. -/
theorem extract_text_not_found (env : Env) (p : String)
    (h : env.pathExists p = false) :
    extract_text env p = Except.error (PyError.fileNotFound ("文件不存在: " ++ p)) := by
  unfold extract_text
  simp [h]

/-- C6 witness: a nonexistent path with the unsupported extension `.docx`
still raises `FileNotFoundError`, not `ValueError`. -/
theorem extract_text_not_found_witness :
    extract_text env0 "ghost.docx" =
      Except.error (PyError.fileNotFound "文件不存在: ghost.docx") := by
  have h := extract_text_not_found env0 "ghost.docx" rfl
  rw [h]
  decide

/-- C7 (confirmed): on an existing file whose Python-lower-cased extension is
not in `{.pdf, .md, .markdown, .txt}`, `extract_text` fails with the
`ValueError` (unsupported-format) kind; the dispatch depends only on the
lower-cased suffix, so it is case-insensitive and deterministic, and unknown
extensions always fail. -/
theorem extract_text_unsupported (env : Env) (p : String)
    (h1 : env.pathExists p = true)
    (h2 : pyLowerStr (pathSuffix p) ∉ SUPPORTED_EXTENSIONS) :
    isValueError (extract_text env p) = true := by
  unfold extract_text
  simp [h1, h2, isValueError]

/-- C7 witness: an existing `a.docx` file is rejected as unsupported. -/
theorem extract_text_unsupported_witness :
    isValueError (extract_text envDocx "a.docx") = true :=
  extract_text_unsupported envDocx "a.docx" rfl (by decide)

/-- C8 (confirmed): on a byte buffer that is valid UTF-8, the decoder
returns exactly the strict UTF-8 decoding; the detectors and the codec
registry (universally quantified here) are never consulted. -/
theorem read_text_valid_utf8 (codecs : String → List Nat → List Char)
    (detA detB : List Nat → Option String) (data : List Nat) (s : List Char)
    (h : utf8DecodeStrict data = some s) :
    read_text_with_fallback codecs detA detB data = s := by
  unfold read_text_with_fallback
  rw [h]

/-- C8 witness: the bytes of `"hi"` decode to `['h', 'i']` even with
detectors that would report other encodings. -/
theorem read_text_valid_utf8_witness :
    read_text_with_fallback (fun _ _ => []) (fun _ => some "latin-1") (fun _ => some "gbk")
      [104, 105] = ['h', 'i'] :=
  read_text_valid_utf8 (fun _ _ => []) (fun _ => some "latin-1") (fun _ => some "gbk")
    [104, 105] ['h', 'i'] (by decide)

/-- C9 (confirmed): on a byte buffer that is not valid UTF-8, when neither
detector yields a usable (non-empty) encoding label, the decoder returns the
total lossy UTF-8 decoding with U+FFFD substitution for undecodable
sequences — it never raises. -/
theorem read_text_lossy_fallback (codecs : String → List Nat → List Char)
    (detA detB : List Nat → Option String) (data : List Nat)
    (h1 : utf8DecodeStrict data = none)
    (h2 : bestLabel (detA data) = none)
    (h3 : bestLabel (detB data) = none) :
    read_text_with_fallback codecs detA detB data = utf8DecodeReplace data := by
  unfold read_text_with_fallback
  rw [h1, h2, h3]

/-- C9 witness: the invalid buffer `[0xFF]` (detector A absent, detector B
reporting the empty label) decodes to a single U+FFFD. -/
theorem read_text_lossy_fallback_witness :
    read_text_with_fallback (fun _ _ => ['X']) (fun _ => none) (fun _ => some "")
      [255] = ['�'] := by
  have h := read_text_lossy_fallback (fun _ _ => ['X']) (fun _ => none) (fun _ => some "")
    [255] (by decide) rfl (by decide)
  rw [h]
  decide

/-- C10 (confirmed): for `chunk_size > 0` and `0 ≤ overlap < chunk_size`,
every chunk in a list returned by `split_text_into_chunks` has length at
most `chunk_size`: the soft-boundary adjustment never moves a window end
past `start + chunk_size`. -/
theorem split_chunk_length_le (text : List Char) (cs ov : Nat)
    (chunks : List (List Char)) (hcs : 0 < cs) (hov : ov < cs)
    (h : split_text_into_chunks text cs ov = some chunks) :
    ∀ c ∈ chunks, c.length ≤ cs := by
  unfold split_text_into_chunks at h
  by_cases hl : text.length ≤ cs
  · rw [if_pos hl] at h
    by_cases hs : pyStrip text = []
    · simp only [hs, if_true, Option.some.injEq] at h
      rw [← h]
      simp
    · simp only [hs, if_false, Option.some.injEq] at h
      rw [← h]
      intro c hc
      rw [List.mem_singleton.mp hc]
      exact hl
  · rw [if_neg hl] at h
    exact chunkLoop_bound text cs ov (text.length + 1) 0 [] chunks (by simp) h

/-- C10 witness: the two chunks produced from `sampleLoopText` with
`chunk_size = 10, overlap = 2` both have length at most 10. -/
theorem split_chunk_length_le_witness :
    (['a', 'b', '。', 'c', 'd', 'e', '.'] : List Char).length ≤ 10 ∧
    (['.', '\n', 'X', 'Y', 'Z', 'Z', 'Z'] : List Char).length ≤ 10 := by
  have h := split_chunk_length_le sampleLoopText 10 2
    [['a', 'b', '。', 'c', 'd', 'e', '.'], ['.', '\n', 'X', 'Y', 'Z', 'Z', 'Z']]
    (by decide) (by decide) (by decide)
  exact ⟨h _ (by simp), h _ (by simp)⟩
